import Mathlib

/-!
Shallow embedding of `Source/WebCore/storage/IDBCursorBackendImpl.cpp`:
the IndexedDB cursor backend (advance loop, tombstone check, target-key
filter, duplicate collapse, update/delete delegation, task scheduling).

The backing `SQLiteStatement` is modelled as the row it is currently
positioned on plus the list of rows that remain to be stepped; the SQLite
database is modelled by the sets (lists) of live row ids of its
`ObjectStoreData` and `IndexData` tables.  Callback invocations
(`IDBCallbacks::onSuccess` / `onError`) are recorded as an explicit list of
events so that "the callback is invoked exactly once" is a provable fact
rather than an artifact of the embedding.
-/

namespace WebCore

/-- IDB keys are compared only by `IDBKey::isEqual` in this file; they are
modelled as naturals with decidable equality. -/
abbrev Key := Nat

/-- SQLite row identifiers (`int64_t` rowids, nonnegative in this schema). -/
abbrev RowId := Nat

/-- Serialized script value payloads (`SerializedScriptValue` wire data,
read by `getColumnBlobAsString`); opaque, modelled as naturals. -/
abbrev Value := Nat

/-- One physical row produced by the backing query.  `loadCurrentRow` reads
column 0 (rowid), column 1 (the cursor key), column 4 (the serialized
value, only for value cursors) and column 5 (the primary-key value of an
index entry, NULL for object-store cursors). -/
structure Row where
  rowId : RowId
  key : Key
  value : Value
  keyValue : Option Key
deriving Repr, DecidableEq

/-- The backing `SQLiteStatement` (`m_query`): positioned on `current`,
with `rest` the rows that remain to be stepped.  `step()` returning
`SQLResultRow` corresponds to `rest` being nonempty. -/
structure Query where
  current : Row
  rest : List Row
deriving Repr, DecidableEq

/-- The live rows of the two authoritative tables consulted by
`currentRowExists` (`SELECT id FROM ObjectStoreData/IndexData WHERE id = ?`). -/
structure Database where
  objectStoreData : List RowId
  indexData : List RowId
deriving Repr, DecidableEq

/-- `IDBCursor::Direction` (from `IDBCursor.h`). -/
inductive Direction where
  | NEXT
  | NEXT_NO_DUPLICATE
  | PREV
  | PREV_NO_DUPLICATE
deriving Repr, DecidableEq

/-- Modelled from the spec: the error taxonomy (`IDBDatabaseException`,
whose header is not part of the fragment); only `NOT_ALLOWED_ERR` is raised
by this file. -/
inductive IDBDatabaseException where
  | UNKNOWN_ERR
  | NON_TRANSIENT_ERR
  | NOT_ALLOWED_ERR
deriving Repr, DecidableEq

/-- `IDBObjectStoreBackendInterface::PutMode`; the cursor always delegates
with `CursorUpdate` provenance. -/
inductive PutSource where
  | AddOrUpdate
  | AddOnly
  | CursorUpdate
deriving Repr, DecidableEq

/-- A call delegated by the Mutation Bridge to the owning object store:
`m_objectStore->put(value, key, CursorUpdate, ...)` or
`m_objectStore->deleteFunction(key, ...)`. -/
inductive Delegation where
  | put (value : Value) (key : Option Key) (source : PutSource)
  | deleteFunction (key : Option Key)
deriving Repr, DecidableEq

/-- The cursor backend object.  Field names follow the C++ members; the
`InvalidId` sentinel for `m_currentId` and the null pointer for the
`RefPtr` members are both modelled as `none`. -/
structure IDBCursorBackendImpl where
  m_query : Option Query
  m_direction : Direction
  m_isSerializedScriptValueCursor : Bool
  m_currentId : Option RowId
  m_currentKey : Option Key
  m_currentSerializedScriptValue : Option Value
  m_currentIDBKeyValue : Option Key
deriving Repr, DecidableEq

/-- One recorded invocation of the `IDBCallbacks` sink:
`onSuccess(cursor)`, `onSuccess(SerializedScriptValue::nullValue())`, or
`onError` (which this file never issues). -/
inductive CallbackEvent where
  | successCursor (cursor : IDBCursorBackendImpl)
  | successNullValue
  | errorEvent (code : IDBDatabaseException)
deriving Repr, DecidableEq

def CallbackEvent.isError : CallbackEvent → Bool
  | CallbackEvent.errorEvent _ => true
  | _ => false

/-- Modelled from the spec: `IDBKey::isEqual` (IDBKey.h/cpp are not part of
the fragment) — key equality, with a null comparand never equal. -/
def keyIsEqual (a : Key) (b : Option Key) : Bool :=
  match b with
  | none => false
  | some k => a == k

/-- `m_currentKey->isEqual(oldKey.get())` with an optional receiver; the
source only evaluates this with a freshly loaded (non-null) receiver. -/
def optKeyIsEqual : Option Key → Option Key → Bool
  | none, _ => false
  | some a, b => keyIsEqual a b

/-- The filter of line 138: `key && !key->isEqual(cursor->m_currentKey.get())`. -/
def keyFilterRejects (key : Option Key) (currentKey : Option Key) : Bool :=
  match key with
  | none => false
  | some k => ! keyIsEqual k currentKey

/-- `IDBCursorBackendImpl::loadCurrentRow`: reads columns 0, 1, 4 (value
cursors only) and 5 of the row the query is positioned on.  The source
dereferences `m_query` unconditionally; every call site has it present. -/
def loadCurrentRow (c : IDBCursorBackendImpl) : IDBCursorBackendImpl :=
  match c.m_query with
  | none => c
  | some q =>
    { c with
      m_currentId := some q.current.rowId
      m_currentKey := some q.current.key
      m_currentSerializedScriptValue :=
        if c.m_isSerializedScriptValueCursor then some q.current.value
        else c.m_currentSerializedScriptValue
      m_currentIDBKeyValue := q.current.keyValue }

/-- The constructor `IDBCursorBackendImpl::IDBCursorBackendImpl`: stores the
query (already positioned on its first row by the opener), the direction and
the cursor-kind flag, then eagerly calls `loadCurrentRow`. -/
def IDBCursorBackendImpl.construct (direction : Direction) (query : Query)
    (isSerializedScriptValueCursor : Bool) : IDBCursorBackendImpl :=
  loadCurrentRow
    { m_query := some query
      m_direction := direction
      m_isSerializedScriptValueCursor := isSerializedScriptValueCursor
      m_currentId := none
      m_currentKey := none
      m_currentSerializedScriptValue := none
      m_currentIDBKeyValue := none }

/-- `IDBCursorBackendImpl::currentRowExists`: a point existence check on
`IndexData` when the row carries a secondary key value
(`m_currentIDBKeyValue`), on `ObjectStoreData` otherwise, keyed on
`m_currentId` (the `InvalidId` sentinel matches no row). -/
def currentRowExists (db : Database) (c : IDBCursorBackendImpl) : Bool :=
  match c.m_currentId with
  | none => false
  | some rowId =>
    if c.m_currentIDBKeyValue.isSome then db.indexData.contains rowId
    else db.objectStoreData.contains rowId

/-- The assignments of lines 121–125: release the query and clear every
current-position field (direction and cursor kind are untouched). -/
def exhaustCursor (c : IDBCursorBackendImpl) : IDBCursorBackendImpl :=
  { c with
    m_query := none
    m_currentId := none
    m_currentKey := none
    m_currentSerializedScriptValue := none
    m_currentIDBKeyValue := none }

/-- The `while (true)` loop of `continueFunctionInternal`, recursing on the
rows that remain to be stepped.  Each iteration: step (exhaust on
`SQLResultDone`), remember `oldKey`, `loadCurrentRow`, then the tombstone
check, the target-key filter and the duplicate collapse, in source order. -/
def stepLoop (db : Database) (key : Option Key) :
    IDBCursorBackendImpl → List Row → IDBCursorBackendImpl × List CallbackEvent
  | c, [] => (exhaustCursor c, [CallbackEvent.successNullValue])
  | c, r :: rs =>
    let oldKey := c.m_currentKey
    let c1 := loadCurrentRow { c with m_query := some { current := r, rest := rs } }
    if currentRowExists db c1 = false then
      stepLoop db key c1 rs
    else if keyFilterRejects key c1.m_currentKey = true then
      stepLoop db key c1 rs
    else if c1.m_direction = Direction.NEXT ∨ c1.m_direction = Direction.PREV then
      (c1, [CallbackEvent.successCursor c1])
    else if optKeyIsEqual c1.m_currentKey oldKey = true then
      stepLoop db key c1 rs
    else
      (c1, [CallbackEvent.successCursor c1])

/-- `IDBCursorBackendImpl::continueFunctionInternal`: the executed advance
task.  With no backing query, or a query with no further rows, the first
loop iteration exhausts the cursor and reports a null success. -/
def continueFunctionInternal (db : Database) (key : Option Key)
    (c : IDBCursorBackendImpl) : IDBCursorBackendImpl × List CallbackEvent :=
  match c.m_query with
  | none => (exhaustCursor c, [CallbackEvent.successNullValue])
  | some q => stepLoop db key c q.rest

/-- `IDBCursorBackendImpl::continueFunction`: schedules the advance task on
the owning transaction; sets `NOT_ALLOWED_ERR` only when `scheduleTask`
refuses.  The cursor's own state is not consulted. -/
def continueFunction (scheduleTaskAccepted : Bool) : Option IDBDatabaseException :=
  if scheduleTaskAccepted then none else some IDBDatabaseException.NOT_ALLOWED_ERR

/-- A whole `continueTo` request: the synchronous scheduling step followed,
when the task was accepted, by its later execution
(`continueFunctionInternal`).  Returns the synchronous error (if any), the
cursor afterwards, and the recorded callback invocations. -/
def continueRequest (db : Database) (scheduleTaskAccepted : Bool)
    (key : Option Key) (c : IDBCursorBackendImpl) :
    Option IDBDatabaseException × IDBCursorBackendImpl × List CallbackEvent :=
  match continueFunction scheduleTaskAccepted with
  | some e => (some e, c, [])
  | none =>
    (none, (continueFunctionInternal db key c).1, (continueFunctionInternal db key c).2)

/-- `IDBCursorBackendImpl::update`: `NOT_ALLOWED_ERR` when there is no
backing query, no current position, or the cursor is not a value cursor;
otherwise delegates a `CursorUpdate` put to the owning object store, keyed
on `m_currentIDBKeyValue` when present, else `m_currentKey`.  The cursor is
returned alongside to record that none of its fields are assigned. -/
def IDBCursorBackendImpl.update (c : IDBCursorBackendImpl) (value : Value) :
    IDBCursorBackendImpl × Option IDBDatabaseException × Option Delegation :=
  if c.m_query = none ∨ c.m_currentId = none ∨ c.m_isSerializedScriptValueCursor = false then
    (c, some IDBDatabaseException.NOT_ALLOWED_ERR, none)
  else
    let key := match c.m_currentIDBKeyValue with
      | some k => some k
      | none => c.m_currentKey
    (c, none, some (Delegation.put value key PutSource.CursorUpdate))

/-- `IDBCursorBackendImpl::deleteFunction`: same guard as `update`;
delegates a delete-by-key with the same target-key resolution. -/
def IDBCursorBackendImpl.deleteFunction (c : IDBCursorBackendImpl) :
    IDBCursorBackendImpl × Option IDBDatabaseException × Option Delegation :=
  if c.m_query = none ∨ c.m_currentId = none ∨ c.m_isSerializedScriptValueCursor = false then
    (c, some IDBDatabaseException.NOT_ALLOWED_ERR, none)
  else
    let key := match c.m_currentIDBKeyValue with
      | some k => some k
      | none => c.m_currentKey
    (c, none, some (Delegation.deleteFunction key))

/-- Whether a fetched row is still live in its authoritative table: the
liveness `currentRowExists` observes right after `loadCurrentRow` loaded
that row. -/
def rowLive (db : Database) (r : Row) : Bool :=
  if r.keyValue.isSome then db.indexData.contains r.rowId
  else db.objectStoreData.contains r.rowId

/-- Plain (duplicate-keeping) directions. -/
def isPlainDirection (d : Direction) : Bool :=
  d == Direction.NEXT || d == Direction.PREV

/-- Modelled from the spec: the Advance Algorithm (§4.2, steps 1–6) as a
declarative scan over the rows remaining in the backing query — fetch;
discard and retry when the row is no longer live, when a supplied target
key differs from the candidate key, or (non-plain directions only) when the
candidate key equals the remembered previous key; otherwise accept.  The
remembered key is overwritten by every fetched candidate (step 2).  Returns
the accepted row and the rows after it, or `none` on exhaustion. -/
def advanceSpec (db : Database) (targetKey : Option Key) (plainDirection : Bool) :
    Option Key → List Row → Option (Row × List Row)
  | _, [] => none
  | prevKey, r :: rs =>
    if ¬ rowLive db r then advanceSpec db targetKey plainDirection (some r.key) rs
    else if targetKey ≠ none ∧ targetKey ≠ some r.key then
      advanceSpec db targetKey plainDirection (some r.key) rs
    else if plainDirection then some (r, rs)
    else if prevKey = some r.key then
      advanceSpec db targetKey plainDirection (some r.key) rs
    else some (r, rs)

/-- The observable outcome of one advance as dictated by `advanceSpec` on a
cursor `c`: exhaust-and-null on `none`, else reposition on the accepted row
and report the cursor itself. -/
def specOutcome (c : IDBCursorBackendImpl) :
    Option (Row × List Row) → IDBCursorBackendImpl × List CallbackEvent
  | none => (exhaustCursor c, [CallbackEvent.successNullValue])
  | some (r, rs) =>
    (loadCurrentRow { c with m_query := some { current := r, rest := rs } },
     [CallbackEvent.successCursor
       (loadCurrentRow { c with m_query := some { current := r, rest := rs } })])

/-- Number of rows the backing query can still step through. -/
def restLen (c : IDBCursorBackendImpl) : Nat :=
  match c.m_query with
  | none => 0
  | some q => q.rest.length

/-- Keys delivered by repeatedly running the advance task (no target key)
until exhaustion; `fuel` bounds the number of advances and `restLen` fuel
is always sufficient (each delivery consumes at least one physical row). -/
def advanceKeysFuel (db : Database) : Nat → IDBCursorBackendImpl → List Key
  | 0, _ => []
  | Nat.succ fuel, c =>
    match continueFunctionInternal db none c with
    | (c2, [CallbackEvent.successCursor _]) =>
      match c2.m_currentKey with
      | some k => k :: advanceKeysFuel db fuel c2
      | none => []
    | _ => []

/-- Keys delivered by iterating advances until the empty-result callback. -/
def advanceKeys (db : Database) (c : IDBCursorBackendImpl) : List Key :=
  advanceKeysFuel db (restLen c) c

/-- Cursor states reachable by the operations of this file: construction,
executed advance tasks (against any database snapshot and target key),
update and delete. -/
inductive Reachable : IDBCursorBackendImpl → Prop where
  | construct (direction : Direction) (query : Query) (isSSV : Bool) :
      Reachable (IDBCursorBackendImpl.construct direction query isSSV)
  | advance (db : Database) (key : Option Key) (c : IDBCursorBackendImpl) :
      Reachable c → Reachable (continueFunctionInternal db key c).1
  | updateStep (value : Value) (c : IDBCursorBackendImpl) :
      Reachable c → Reachable (c.update value).1
  | deleteStep (c : IDBCursorBackendImpl) :
      Reachable c → Reachable c.deleteFunction.1

/-! ### Helper lemmas -/

lemma loadCurrentRow_some (c : IDBCursorBackendImpl) (q : Query) :
    loadCurrentRow { c with m_query := some q } =
      { c with
        m_query := some q
        m_currentId := some q.current.rowId
        m_currentKey := some q.current.key
        m_currentSerializedScriptValue :=
          if c.m_isSerializedScriptValueCursor then some q.current.value
          else c.m_currentSerializedScriptValue
        m_currentIDBKeyValue := q.current.keyValue } := rfl

lemma currentRowExists_load (db : Database) (c : IDBCursorBackendImpl) (q : Query) :
    currentRowExists db (loadCurrentRow { c with m_query := some q }) =
      rowLive db q.current := rfl

lemma exhaustCursor_load (c : IDBCursorBackendImpl) (q : Query) :
    exhaustCursor (loadCurrentRow { c with m_query := some q }) = exhaustCursor c := rfl

lemma loadCurrentRow_load (c : IDBCursorBackendImpl) (q q2 : Query) :
    loadCurrentRow
        { loadCurrentRow { c with m_query := some q } with m_query := some q2 } =
      loadCurrentRow { c with m_query := some q2 } := by
  cases hb : c.m_isSerializedScriptValueCursor <;>
    simp [loadCurrentRow, hb]

lemma keyFilterRejects_some_iff (key : Option Key) (k0 : Key) :
    keyFilterRejects key (some k0) = true ↔ (key ≠ none ∧ key ≠ some k0) := by
  cases key <;> simp [keyFilterRejects, keyIsEqual]

lemma optKeyIsEqual_some_iff (a : Key) (b : Option Key) :
    optKeyIsEqual (some a) b = true ↔ b = some a := by
  cases b with
  | none => simp [optKeyIsEqual, keyIsEqual]
  | some k =>
    simp only [optKeyIsEqual, keyIsEqual, beq_iff_eq, Option.some_inj]
    exact eq_comm

lemma specOutcome_load (c : IDBCursorBackendImpl) (q : Query)
    (o : Option (Row × List Row)) :
    specOutcome (loadCurrentRow { c with m_query := some q }) o = specOutcome c o := by
  cases o with
  | none => simp [specOutcome, exhaustCursor_load]
  | some p =>
    obtain ⟨r, rs⟩ := p
    simp [specOutcome, loadCurrentRow_load]

lemma isPlainDirection_iff (d : Direction) :
    isPlainDirection d = true ↔ (d = Direction.NEXT ∨ d = Direction.PREV) := by
  cases d <;> simp [isPlainDirection]

/-- One unfolding of the loop body, with the tombstone check, the filter
conditions and the cursor projections reduced to the fetched row `r`. -/
lemma stepLoop_cons (db : Database) (key : Option Key) (c : IDBCursorBackendImpl)
    (r : Row) (rs : List Row) :
    stepLoop db key c (r :: rs) =
      (if rowLive db r = false then
        stepLoop db key (loadCurrentRow { c with m_query := some { current := r, rest := rs } }) rs
      else if keyFilterRejects key (some r.key) = true then
        stepLoop db key (loadCurrentRow { c with m_query := some { current := r, rest := rs } }) rs
      else if c.m_direction = Direction.NEXT ∨ c.m_direction = Direction.PREV then
        (loadCurrentRow { c with m_query := some { current := r, rest := rs } },
         [CallbackEvent.successCursor
           (loadCurrentRow { c with m_query := some { current := r, rest := rs } })])
      else if optKeyIsEqual (some r.key) c.m_currentKey = true then
        stepLoop db key (loadCurrentRow { c with m_query := some { current := r, rest := rs } }) rs
      else
        (loadCurrentRow { c with m_query := some { current := r, rest := rs } },
         [CallbackEvent.successCursor
           (loadCurrentRow { c with m_query := some { current := r, rest := rs } })])) := rfl

/-- The refinement: the imperative retry loop of `continueFunctionInternal`
computes exactly the outcome the declarative Advance Algorithm dictates. -/
lemma stepLoop_eq (db : Database) (key : Option Key) (l : List Row) :
    ∀ c : IDBCursorBackendImpl,
      stepLoop db key c l =
        specOutcome c
          (advanceSpec db key (isPlainDirection c.m_direction) c.m_currentKey l) := by
  induction l with
  | nil => intro c; rfl
  | cons r rs ih =>
    intro c
    have hskip :
        stepLoop db key (loadCurrentRow { c with m_query := some { current := r, rest := rs } }) rs
          = specOutcome c
              (advanceSpec db key (isPlainDirection c.m_direction) (some r.key) rs) := by
      rw [ih]
      rw [show (loadCurrentRow
            { c with m_query := some { current := r, rest := rs } }).m_direction
          = c.m_direction from rfl]
      rw [show (loadCurrentRow
            { c with m_query := some { current := r, rest := rs } }).m_currentKey
          = some r.key from rfl]
      rw [specOutcome_load]
    rw [stepLoop_cons]
    simp only [advanceSpec]
    by_cases hlive : rowLive db r = true
    · rw [if_neg (show ¬ rowLive db r = false by simp [hlive]),
        if_neg (show ¬ ¬ rowLive db r = true by simp [hlive])]
      by_cases hkf : key ≠ none ∧ key ≠ some r.key
      · rw [if_pos ((keyFilterRejects_some_iff key r.key).2 hkf), if_pos hkf, hskip]
      · rw [if_neg (show ¬ keyFilterRejects key (some r.key) = true from
            fun h => hkf ((keyFilterRejects_some_iff key r.key).1 h)), if_neg hkf]
        by_cases hpl : c.m_direction = Direction.NEXT ∨ c.m_direction = Direction.PREV
        · rw [if_pos hpl, if_pos ((isPlainDirection_iff c.m_direction).2 hpl)]
          rfl
        · rw [if_neg hpl,
            if_neg (show ¬ isPlainDirection c.m_direction = true from
              fun h => hpl ((isPlainDirection_iff c.m_direction).1 h))]
          by_cases hdup : c.m_currentKey = some r.key
          · rw [if_pos ((optKeyIsEqual_some_iff r.key c.m_currentKey).2 hdup),
              if_pos hdup, hskip]
          · rw [if_neg (show ¬ optKeyIsEqual (some r.key) c.m_currentKey = true from
                fun h => hdup ((optKeyIsEqual_some_iff r.key c.m_currentKey).1 h)),
              if_neg hdup]
            rfl
    · have hlf : rowLive db r = false := by simpa using hlive
      rw [if_pos hlf, if_pos (show ¬ rowLive db r = true by simp [hlf]), hskip]

lemma continueFunctionInternal_some (db : Database) (key : Option Key)
    (c : IDBCursorBackendImpl) (q : Query) (h : c.m_query = some q) :
    continueFunctionInternal db key c =
      specOutcome c
        (advanceSpec db key (isPlainDirection c.m_direction) c.m_currentKey q.rest) := by
  unfold continueFunctionInternal
  rw [h]
  exact stepLoop_eq db key q.rest c

lemma continueFunctionInternal_none (db : Database) (key : Option Key)
    (c : IDBCursorBackendImpl) (h : c.m_query = none) :
    continueFunctionInternal db key c =
      (exhaustCursor c, [CallbackEvent.successNullValue]) := by
  unfold continueFunctionInternal
  rw [h]

/-- Any accepted candidate is live, matches the target key when one was
supplied, and consumed at least one physical row. -/
lemma advanceSpec_sound (db : Database) (t : Option Key) (p : Bool) :
    ∀ (l : List Row) (pk : Option Key) (r : Row) (rs : List Row),
      advanceSpec db t p pk l = some (r, rs) →
      rowLive db r = true ∧ (∀ k, t = some k → r.key = k) ∧ rs.length < l.length := by
  intro l
  induction l with
  | nil => intro pk r rs h; simp [advanceSpec] at h
  | cons a as ih =>
    intro pk r rs h
    rw [advanceSpec] at h
    split at h
    · obtain ⟨h1, h2, h3⟩ := ih _ _ _ h
      exact ⟨h1, h2, by simpa using Nat.lt_succ_of_lt h3⟩
    · rename_i hlive
      have hl : rowLive db a = true := by
        cases hv : rowLive db a
        · exact absurd (by simp [hv]) hlive
        · rfl
      split at h
      · obtain ⟨h1, h2, h3⟩ := ih _ _ _ h
        exact ⟨h1, h2, by simpa using Nat.lt_succ_of_lt h3⟩
      · rename_i hkf
        have hkey : ∀ k, t = some k → a.key = k := by
          intro k hk
          rcases not_and_or.mp hkf with h0 | h0
          · rw [not_not, hk] at h0
            cases h0
          · rw [not_not, hk] at h0
            injection h0 with h0
            exact h0.symm
        have haccept : some (a, as) = some (r, rs) →
            rowLive db r = true ∧ (∀ k, t = some k → r.key = k) ∧
              rs.length < (a :: as).length := by
          intro hacc
          injection hacc with hacc
          injection hacc with hacc1 hacc2
          subst hacc1
          subst hacc2
          exact ⟨hl, hkey, by simp⟩
        split at h
        · exact haccept h
        · split at h
          · obtain ⟨h1, h2, h3⟩ := ih _ _ _ h
            exact ⟨h1, h2, by simpa using Nat.lt_succ_of_lt h3⟩
          · exact haccept h

/-- For plain directions with a target key, the scan exhausts exactly when
no live row with that key remains. -/
lemma advanceSpec_target_none_iff (db : Database) (k : Key) :
    ∀ (l : List Row) (pk : Option Key),
      (advanceSpec db (some k) true pk l = none ↔
        ∀ r ∈ l, ¬(rowLive db r = true ∧ r.key = k)) := by
  intro l
  induction l with
  | nil => intro pk; simp [advanceSpec]
  | cons a as ih =>
    intro pk
    rw [advanceSpec]
    by_cases hlive : rowLive db a = true
    · by_cases hk : a.key = k
      · rw [if_neg (show ¬ ¬ rowLive db a = true by simp [hlive]),
          if_neg (show ¬ (some k ≠ none ∧ some k ≠ some a.key) by simp [hk]),
          if_pos rfl]
        simp [hlive, hk]
      · rw [if_neg (show ¬ ¬ rowLive db a = true by simp [hlive]),
          if_pos ⟨Option.some_ne_none k,
            show some k ≠ some a.key from fun h => by
              injection h with h
              exact hk h.symm⟩]
        rw [ih]
        simp [hk]
    · have hlf : rowLive db a = false := by simpa using hlive
      rw [if_pos (show ¬ rowLive db a = true by simp [hlf]), ih]
      simp [hlf]

/-- For plain directions with no target key, the scan accepts exactly the
first live remaining row. -/
lemma advanceSpec_plain_noKey (db : Database) :
    ∀ (l : List Row) (pk : Option Key),
      advanceSpec db none true pk l =
        (match l.dropWhile (fun r => ! rowLive db r) with
          | [] => none
          | r :: rs => some (r, rs)) := by
  intro l
  induction l with
  | nil => intro pk; rfl
  | cons a as ih =>
    intro pk
    rw [advanceSpec, List.dropWhile_cons]
    by_cases hlive : rowLive db a = true
    · rw [if_neg (show ¬ ¬ rowLive db a = true by simp [hlive]),
        if_neg (show ¬ ((none : Option Key) ≠ none ∧ (none : Option Key) ≠ some a.key)
          by simp),
        if_pos rfl]
      simp [hlive]
    · have hlf : rowLive db a = false := by simpa using hlive
      rw [if_pos (show ¬ rowLive db a = true by simp [hlf]), ih]
      simp [hlf]

/-- `specOutcome` ignores the cursor's own backing-query field (it is
either dropped or overwritten). -/
lemma specOutcome_query (c : IDBCursorBackendImpl) (x : Option Query)
    (o : Option (Row × List Row)) :
    specOutcome { c with m_query := x } o = specOutcome c o := by
  cases o with
  | none => rfl
  | some p => obtain ⟨r, rs⟩ := p; rfl

/-- The delivered keys of a no-duplicate cursor: repeated advances over an
all-live remainder deliver exactly the first key of each run of equal
adjacent keys. -/
lemma advanceKeysFuel_noDup (db : Database) :
    ∀ (l : List Row) (fuel : Nat) (c : IDBCursorBackendImpl) (cur : Row),
      c.m_query = some { current := cur, rest := l } →
      c.m_currentKey = some cur.key →
      isPlainDirection c.m_direction = false →
      l.length ≤ fuel →
      (∀ r ∈ l, rowLive db r = true) →
      cur.key :: advanceKeysFuel db fuel c =
        List.destutter' (· ≠ ·) cur.key (l.map Row.key) := by
  intro l
  induction l with
  | nil =>
    intro fuel c cur hq hk hd _ _
    have hint : continueFunctionInternal db none c =
        (exhaustCursor c, [CallbackEvent.successNullValue]) := by
      rw [continueFunctionInternal_some db none c _ hq, hd, hk]
      rfl
    cases fuel with
    | zero => simp [advanceKeysFuel]
    | succ f => simp [advanceKeysFuel, hint]
  | cons a as ih =>
    intro fuel c cur hq hk hd hlen hlive
    have hlivea : rowLive db a = true := hlive a (by simp)
    have hliveas : ∀ r ∈ as, rowLive db r = true := fun r hr => hlive r (by simp [hr])
    by_cases hkey : a.key = cur.key
    · -- candidate key equals the remembered previous key: collapsed
      have hspec : advanceSpec db none false (some cur.key) (a :: as) =
          advanceSpec db none false (some cur.key) as := by
        rw [advanceSpec,
          if_neg (show ¬ ¬ rowLive db a = true by simp [hlivea]),
          if_neg (show ¬ ((none : Option Key) ≠ none ∧ (none : Option Key) ≠ some a.key)
            by simp),
          if_neg (show ¬ (false : Bool) = true by simp),
          if_pos (show some cur.key = some a.key by rw [hkey]), hkey]
      have hint : continueFunctionInternal db none c =
          specOutcome c (advanceSpec db none false (some cur.key) as) := by
        rw [continueFunctionInternal_some db none c _ hq, hd, hk, hspec]
      have hint2 : continueFunctionInternal db none
            { c with m_query := some { current := cur, rest := as } } =
          specOutcome c (advanceSpec db none false (some cur.key) as) := by
        rw [continueFunctionInternal_some db none _ _ rfl, specOutcome_query]
        show specOutcome c
            (advanceSpec db none (isPlainDirection c.m_direction) c.m_currentKey as) = _
        rw [hd, hk]
      have hfuel : advanceKeysFuel db fuel c =
          advanceKeysFuel db fuel { c with m_query := some { current := cur, rest := as } } := by
        cases fuel with
        | zero => rfl
        | succ f => simp only [advanceKeysFuel, hint, hint2]
      have hlen' : as.length ≤ fuel := by
        simp only [List.length_cons] at hlen
        omega
      rw [hfuel,
        ih fuel { c with m_query := some { current := cur, rest := as } } cur rfl hk hd
          hlen' hliveas,
        List.map_cons, List.destutter'_cons_neg _ (not_not_intro hkey.symm)]
    · -- key changed: the candidate is accepted
      have hspec : advanceSpec db none false (some cur.key) (a :: as) = some (a, as) := by
        rw [advanceSpec,
          if_neg (show ¬ ¬ rowLive db a = true by simp [hlivea]),
          if_neg (show ¬ ((none : Option Key) ≠ none ∧ (none : Option Key) ≠ some a.key)
            by simp),
          if_neg (show ¬ (false : Bool) = true by simp),
          if_neg (show ¬ some cur.key = some a.key from fun h => by
            injection h with h
            exact hkey h.symm)]
      have hint : continueFunctionInternal db none c =
          (loadCurrentRow { c with m_query := some { current := a, rest := as } },
           [CallbackEvent.successCursor
             (loadCurrentRow { c with m_query := some { current := a, rest := as } })]) := by
        rw [continueFunctionInternal_some db none c _ hq, hd, hk, hspec]
        rfl
      obtain ⟨f, rfl⟩ : ∃ f, fuel = f + 1 := by
        refine ⟨fuel - 1, ?_⟩
        simp only [List.length_cons] at hlen
        omega
      have hlen' : as.length ≤ f := by
        simp only [List.length_cons] at hlen
        omega
      have hstep : advanceKeysFuel db (f + 1) c =
          a.key :: advanceKeysFuel db f
            (loadCurrentRow { c with m_query := some { current := a, rest := as } }) := by
        simp only [advanceKeysFuel, hint]
        rfl
      rw [hstep, List.map_cons,
        List.destutter'_cons_pos _ (show cur.key ≠ a.key from fun h => hkey h.symm),
        ih f (loadCurrentRow { c with m_query := some { current := a, rest := as } }) a
          rfl rfl hd hlen' hliveas]

/-- Every executed advance task either exhausts (null-success event) or
repositions on an accepted candidate (cursor-success event). -/
lemma internal_cases (db : Database) (key : Option Key) (c : IDBCursorBackendImpl) :
    ((continueFunctionInternal db key c).1 = exhaustCursor c ∧
      (continueFunctionInternal db key c).2 = [CallbackEvent.successNullValue]) ∨
    (∃ q r rs, c.m_query = some q ∧
      advanceSpec db key (isPlainDirection c.m_direction) c.m_currentKey q.rest =
        some (r, rs) ∧
      (continueFunctionInternal db key c).1 =
        loadCurrentRow { c with m_query := some { current := r, rest := rs } } ∧
      (continueFunctionInternal db key c).2 =
        [CallbackEvent.successCursor
          (loadCurrentRow { c with m_query := some { current := r, rest := rs } })]) := by
  cases hq : c.m_query with
  | none =>
    left
    rw [continueFunctionInternal_none db key c hq]
    exact ⟨rfl, rfl⟩
  | some q =>
    rw [continueFunctionInternal_some db key c q hq]
    cases hadv : advanceSpec db key (isPlainDirection c.m_direction) c.m_currentKey q.rest with
    | none =>
      left
      exact ⟨rfl, rfl⟩
    | some p =>
      obtain ⟨r, rs⟩ := p
      right
      exact ⟨q, r, rs, rfl, hadv, rfl, rfl⟩

/-- `update` assigns no cursor field. -/
lemma update_fst (c : IDBCursorBackendImpl) (v : Value) : (c.update v).1 = c := by
  unfold IDBCursorBackendImpl.update
  split <;> rfl

/-- `deleteFunction` assigns no cursor field. -/
lemma deleteFunction_fst (c : IDBCursorBackendImpl) : c.deleteFunction.1 = c := by
  unfold IDBCursorBackendImpl.deleteFunction
  split <;> rfl

/-! ### Sample data for witnesses and counterexamples -/

def rowA : Row := { rowId := 1, key := 10, value := 100, keyValue := none }

def rowB1 : Row := { rowId := 2, key := 20, value := 200, keyValue := none }

def rowB2 : Row := { rowId := 3, key := 20, value := 300, keyValue := none }

def rowC : Row := { rowId := 4, key := 30, value := 400, keyValue := none }

def sampleQuery : Query := { current := rowA, rest := [rowB1, rowB2, rowC] }

def sampleDb : Database := { objectStoreData := [1, 2, 3, 4], indexData := [] }

def sampleCursor : IDBCursorBackendImpl :=
  IDBCursorBackendImpl.construct Direction.NEXT sampleQuery true

def sampleNoDupCursor : IDBCursorBackendImpl :=
  IDBCursorBackendImpl.construct Direction.NEXT_NO_DUPLICATE sampleQuery true

/-- `sampleDb` with the row of id 2 (`rowB1`) deleted from `ObjectStoreData`. -/
def deletedDb : Database := { objectStoreData := [1, 3, 4], indexData := [] }

def exhaustedCursor : IDBCursorBackendImpl :=
  { m_query := none
    m_direction := Direction.NEXT
    m_isSerializedScriptValueCursor := true
    m_currentId := none
    m_currentKey := none
    m_currentSerializedScriptValue := none
    m_currentIDBKeyValue := none }

def rowJ : Row := { rowId := 8, key := 1, value := 0, keyValue := none }

def rowKdead : Row := { rowId := 9, key := 5, value := 0, keyValue := none }

def rowKlive : Row := { rowId := 10, key := 5, value := 0, keyValue := none }

def dupTargetQuery : Query := { current := rowJ, rest := [rowKdead, rowKlive] }

/-- `rowKdead` (id 9) is deleted; `rowJ` and `rowKlive` are live. -/
def dupTargetDb : Database := { objectStoreData := [8, 10], indexData := [] }

def dupTargetCursor : IDBCursorBackendImpl :=
  IDBCursorBackendImpl.construct Direction.NEXT_NO_DUPLICATE dupTargetQuery true

/-! ### Claim theorems -/

/-- C1: every executed advance task on a cursor with a live backing query
filters each fetched candidate exactly as the Advance Algorithm dictates —
the tombstone check (IndexData when the row carries a secondary key value,
ObjectStoreData otherwise) first, then the target-key filter, then the
duplicate collapse against the remembered previous key for the
NoDuplicate directions only, with plain Next/Prev accepting immediately —
and the accepted candidate becomes the current position, reported as a
success carrying the cursor itself. -/
theorem claim1_advance_refines_advance_algorithm (db : Database) (key : Option Key)
    (c : IDBCursorBackendImpl) (q : Query) (hq : c.m_query = some q) :
    continueFunctionInternal db key c =
      specOutcome c
        (advanceSpec db key (isPlainDirection c.m_direction) c.m_currentKey q.rest) :=
  continueFunctionInternal_some db key c q hq

theorem claim1_witness :
    sampleCursor.m_query = some sampleQuery ∧
    continueFunctionInternal sampleDb none sampleCursor =
      specOutcome sampleCursor
        (advanceSpec sampleDb none (isPlainDirection sampleCursor.m_direction)
          sampleCursor.m_currentKey sampleQuery.rest) :=
  ⟨rfl, claim1_advance_refines_advance_algorithm sampleDb none sampleCursor sampleQuery rfl⟩

/-- C2 (counterexample): a `continueTo` on an exhausted cursor (no backing
query) whose transaction accepts the task does NOT fail synchronously with
NotAllowed — it is scheduled, and the task reaches the callback path,
delivering an empty-result success. -/
theorem claim2_counterexample :
    exhaustedCursor.m_query = none ∧
    (continueRequest sampleDb true none exhaustedCursor).1 ≠
      some IDBDatabaseException.NOT_ALLOWED_ERR ∧
    (continueRequest sampleDb true none exhaustedCursor).2.2 =
      [CallbackEvent.successNullValue] := by
  refine ⟨rfl, ?_, rfl⟩
  intro h
  cases h

/-- C2 (amended): `continueTo` fails synchronously with NotAllowed exactly
when the owning transaction refuses to schedule the task (and then no
callback is delivered); an advance on an already-exhausted cursor whose
transaction accepts is scheduled normally and its task delivers a single
empty-result success callback instead of failing. -/
theorem claim2_schedule_refusal_only (db : Database) (accepted : Bool)
    (key : Option Key) (c : IDBCursorBackendImpl) :
    ((continueRequest db accepted key c).1 = some IDBDatabaseException.NOT_ALLOWED_ERR ↔
      accepted = false) ∧
    (accepted = false → (continueRequest db accepted key c).2.2 = []) ∧
    (accepted = true → c.m_query = none →
      (continueRequest db accepted key c).2.2 = [CallbackEvent.successNullValue]) := by
  cases accepted with
  | false => simp [continueRequest, continueFunction]
  | true =>
    refine ⟨by simp [continueRequest, continueFunction], by simp, fun _ hq => ?_⟩
    simp [continueRequest, continueFunction, continueFunctionInternal_none db key c hq]

theorem claim2_witness :
    (exhaustedCursor.m_query = none) ∧
    (continueRequest sampleDb true none exhaustedCursor).2.2 =
      [CallbackEvent.successNullValue] :=
  ⟨rfl, (claim2_schedule_refusal_only sampleDb true none exhaustedCursor).2.2 rfl rfl⟩

/-- C3: an executed advance task reports an empty/null success exactly when
it leaves the cursor exhausted; exhaustion permanently releases the backing
query and clears every current-position field (row id, current key,
serialized value, secondary key value); a cursor already without a backing
query again yields the single null-success callback; and no advance ever
delivers an error callback. -/
theorem claim3_exhaustion_empty_success (db : Database) (key : Option Key)
    (c : IDBCursorBackendImpl) :
    ((continueFunctionInternal db key c).2 = [CallbackEvent.successNullValue] ↔
      (continueFunctionInternal db key c).1.m_query = none) ∧
    ((continueFunctionInternal db key c).1.m_query = none →
      (continueFunctionInternal db key c).1.m_currentId = none ∧
      (continueFunctionInternal db key c).1.m_currentKey = none ∧
      (continueFunctionInternal db key c).1.m_currentSerializedScriptValue = none ∧
      (continueFunctionInternal db key c).1.m_currentIDBKeyValue = none) ∧
    (c.m_query = none →
      (continueFunctionInternal db key c).2 = [CallbackEvent.successNullValue]) ∧
    (∀ e ∈ (continueFunctionInternal db key c).2, e.isError = false) := by
  rcases internal_cases db key c with ⟨h1, h2⟩ | ⟨q, r, rs, hq, hadv, h1, h2⟩
  · rw [h1, h2]
    exact ⟨by simp [exhaustCursor], fun _ => ⟨rfl, rfl, rfl, rfl⟩, fun _ => rfl,
      by simp [CallbackEvent.isError]⟩
  · rw [h1, h2]
    refine ⟨by simp [loadCurrentRow_some], ?_, ?_, by simp [CallbackEvent.isError]⟩
    · intro h
      rw [loadCurrentRow_some] at h
      cases h
    · intro h
      rw [hq] at h
      cases h

theorem claim3_witness :
    (exhaustedCursor.m_query = none) ∧
    (continueFunctionInternal sampleDb none exhaustedCursor).2 =
      [CallbackEvent.successNullValue] :=
  ⟨rfl, (claim3_exhaustion_empty_success sampleDb none exhaustedCursor).2.2.1 rfl⟩

/-- C4: for a NoDuplicate cursor over all-live rows, iterating by repeated
advances delivers exactly one key per group of equal adjacent keys — the
position sequence (initial position followed by the delivered keys) is the
adjacent-deduplication of the physical key sequence. -/
theorem claim4_noDuplicate_collapse (db : Database) (q : Query) (direction : Direction)
    (isSSV : Bool)
    (hdir : direction = Direction.NEXT_NO_DUPLICATE ∨
      direction = Direction.PREV_NO_DUPLICATE)
    (hlive : ∀ r ∈ q.rest, rowLive db r = true) :
    q.current.key ::
        advanceKeys db (IDBCursorBackendImpl.construct direction q isSSV) =
      List.destutter (· ≠ ·) (q.current.key :: q.rest.map Row.key) := by
  have hplain : isPlainDirection direction = false := by
    rcases hdir with h | h <;> subst h <;> rfl
  rw [List.destutter_cons']
  exact advanceKeysFuel_noDup db q.rest _
    (IDBCursorBackendImpl.construct direction q isSSV) q.current rfl rfl hplain
    (Nat.le_refl _) hlive

theorem claim4_witness :
    (Direction.NEXT_NO_DUPLICATE = Direction.NEXT_NO_DUPLICATE ∨
      Direction.NEXT_NO_DUPLICATE = Direction.PREV_NO_DUPLICATE) ∧
    (∀ r ∈ sampleQuery.rest, rowLive sampleDb r = true) ∧
    sampleQuery.current.key :: advanceKeys sampleDb sampleNoDupCursor =
      List.destutter (· ≠ ·) (sampleQuery.current.key :: sampleQuery.rest.map Row.key) :=
  ⟨Or.inl rfl, by decide,
    claim4_noDuplicate_collapse sampleDb sampleQuery Direction.NEXT_NO_DUPLICATE true
      (Or.inl rfl) (by decide)⟩

/-- C5: a row deleted from its authoritative table is never delivered — any
cursor-success result still exists there — and for a plain-direction,
no-target advance the loop lands exactly on the first remaining live row
(or exhausts when none remains), skipping deleted rows transparently. -/
theorem claim5_deleted_never_delivered :
    (∀ (db : Database) (key : Option Key) (c c2 : IDBCursorBackendImpl),
      (continueFunctionInternal db key c).2 = [CallbackEvent.successCursor c2] →
      currentRowExists db c2 = true) ∧
    (∀ (db : Database) (c : IDBCursorBackendImpl) (q : Query),
      c.m_query = some q → isPlainDirection c.m_direction = true →
      continueFunctionInternal db none c =
        (match q.rest.dropWhile (fun r => ! rowLive db r) with
          | [] => (exhaustCursor c, [CallbackEvent.successNullValue])
          | r :: rs =>
            (loadCurrentRow { c with m_query := some { current := r, rest := rs } },
             [CallbackEvent.successCursor
               (loadCurrentRow { c with m_query := some { current := r, rest := rs } })]))) := by
  constructor
  · intro db key c c2 h
    rcases internal_cases db key c with ⟨h1, h2⟩ | ⟨q, r, rs, hq, hadv, h1, h2⟩
    · rw [h2] at h
      cases h
    · rw [h2] at h
      injection h with h h'
      injection h with h
      subst h
      rw [currentRowExists_load]
      exact (advanceSpec_sound db key _ q.rest c.m_currentKey r rs hadv).1
  · intro db c q hq hplain
    rw [continueFunctionInternal_some db none c q hq, hplain, advanceSpec_plain_noKey]
    cases q.rest.dropWhile (fun r => ! rowLive db r) with
    | nil => rfl
    | cons r rs => rfl

def deletedScanQuery : Query := { current := rowA, rest := [rowB1, rowC] }

def deletedScanCursor : IDBCursorBackendImpl :=
  IDBCursorBackendImpl.construct Direction.NEXT deletedScanQuery true

theorem claim5_witness :
    (deletedScanCursor.m_query = some deletedScanQuery) ∧
    isPlainDirection deletedScanCursor.m_direction = true ∧
    continueFunctionInternal deletedDb none deletedScanCursor =
      (match deletedScanQuery.rest.dropWhile (fun r => ! rowLive deletedDb r) with
        | [] => (exhaustCursor deletedScanCursor, [CallbackEvent.successNullValue])
        | r :: rs =>
          (loadCurrentRow
            { deletedScanCursor with m_query := some { current := r, rest := rs } },
           [CallbackEvent.successCursor
             (loadCurrentRow
               { deletedScanCursor with
                  m_query := some { current := r, rest := rs } })])) ∧
    (continueFunctionInternal deletedDb none deletedScanCursor).1.m_currentKey = some 30 :=
  ⟨rfl, rfl,
    claim5_deleted_never_delivered.2 deletedDb deletedScanCursor deletedScanQuery rfl rfl,
    by decide⟩

/-- C6: `update` and `deleteFunction` both fail with NotAllowed, delegating
nothing, exactly when the backing query is absent, the current row id is
the Invalid sentinel, or the cursor is not a value cursor; otherwise they
delegate to the owning object store — a `CursorUpdate` put, resp. a
delete-by-key — targeting the secondary key value when present, else the
cursor's current key. -/
theorem claim6_mutation_guard_and_target (c : IDBCursorBackendImpl) (v : Value) :
    ((c.m_query = none ∨ c.m_currentId = none ∨
        c.m_isSerializedScriptValueCursor = false) →
      c.update v = (c, some IDBDatabaseException.NOT_ALLOWED_ERR, none) ∧
      c.deleteFunction = (c, some IDBDatabaseException.NOT_ALLOWED_ERR, none)) ∧
    (¬(c.m_query = none ∨ c.m_currentId = none ∨
        c.m_isSerializedScriptValueCursor = false) →
      c.update v =
        (c, none, some (Delegation.put v
          (match c.m_currentIDBKeyValue with
            | some k => some k
            | none => c.m_currentKey) PutSource.CursorUpdate)) ∧
      c.deleteFunction =
        (c, none, some (Delegation.deleteFunction
          (match c.m_currentIDBKeyValue with
            | some k => some k
            | none => c.m_currentKey)))) := by
  constructor
  · intro h
    unfold IDBCursorBackendImpl.update IDBCursorBackendImpl.deleteFunction
    rw [if_pos h, if_pos h]
    exact ⟨rfl, rfl⟩
  · intro h
    unfold IDBCursorBackendImpl.update IDBCursorBackendImpl.deleteFunction
    rw [if_neg h, if_neg h]
    exact ⟨rfl, rfl⟩

theorem claim6_witness :
    ¬(sampleCursor.m_query = none ∨ sampleCursor.m_currentId = none ∨
        sampleCursor.m_isSerializedScriptValueCursor = false) ∧
    (sampleCursor.update 7 =
        (sampleCursor, none, some (Delegation.put 7
          (match sampleCursor.m_currentIDBKeyValue with
            | some k => some k
            | none => sampleCursor.m_currentKey) PutSource.CursorUpdate)) ∧
      sampleCursor.deleteFunction =
        (sampleCursor, none, some (Delegation.deleteFunction
          (match sampleCursor.m_currentIDBKeyValue with
            | some k => some k
            | none => sampleCursor.m_currentKey)))) :=
  ⟨by decide, (claim6_mutation_guard_and_target sampleCursor 7).2 (by decide)⟩

/-- C7 (counterexample): with direction NextNoDuplicate, a target-key
advance can exhaust even though a live row with the target key remains in
the query: a deleted row with the target key updates the remembered
previous key, so the following live row with that key is collapsed as a
duplicate.  Here the cursor sits before key 5, the query holds a deleted
key-5 row (id 9) then a live key-5 row (id 10), yet the advance to key 5
reports the empty result. -/
theorem claim7_counterexample :
    dupTargetCursor.m_query = some dupTargetQuery ∧
    dupTargetCursor.m_currentKey = some 1 ∧
    rowKlive ∈ dupTargetQuery.rest ∧
    rowLive dupTargetDb rowKlive = true ∧
    rowKlive.key = 5 ∧
    (continueFunctionInternal dupTargetDb (some 5) dupTargetCursor).2 =
      [CallbackEvent.successNullValue] := by decide

/-- C7 (amended): a target-key advance stops only on a live row whose key
equals the target; for the plain Next/Prev directions it exhausts exactly
when no live row with the target key remains in the query.  (For the
NoDuplicate directions exhaustion can also occur with a live target row
remaining, when a deleted row carrying the target key precedes it.) -/
theorem claim7_target_scan (db : Database) (k : Key) (c : IDBCursorBackendImpl) :
    (∀ c2,
      (continueFunctionInternal db (some k) c).2 = [CallbackEvent.successCursor c2] →
      c2.m_currentKey = some k ∧ currentRowExists db c2 = true) ∧
    (∀ q, c.m_query = some q → isPlainDirection c.m_direction = true →
      ((continueFunctionInternal db (some k) c).2 = [CallbackEvent.successNullValue] ↔
        ∀ r ∈ q.rest, ¬(rowLive db r = true ∧ r.key = k))) := by
  constructor
  · intro c2 h
    rcases internal_cases db (some k) c with ⟨h1, h2⟩ | ⟨q, r, rs, hq, hadv, h1, h2⟩
    · rw [h2] at h
      cases h
    · rw [h2] at h
      injection h with h h'
      injection h with h
      subst h
      obtain ⟨hl, hkmatch, _⟩ :=
        advanceSpec_sound db (some k) _ q.rest c.m_currentKey r rs hadv
      constructor
      · show some r.key = some k
        rw [hkmatch k rfl]
      · rw [currentRowExists_load]
        exact hl
  · intro q hq hplain
    rw [continueFunctionInternal_some db (some k) c q hq, hplain]
    cases hadv : advanceSpec db (some k) true c.m_currentKey q.rest with
    | none =>
      exact ⟨fun _ => (advanceSpec_target_none_iff db k q.rest c.m_currentKey).1 hadv,
        fun _ => rfl⟩
    | some p =>
      obtain ⟨r, rs⟩ := p
      constructor
      · intro h
        exact absurd h (by simp [specOutcome])
      · intro hall
        exfalso
        have hnone := (advanceSpec_target_none_iff db k q.rest c.m_currentKey).2 hall
        rw [hadv] at hnone
        cases hnone

theorem claim7_witness :
    (sampleCursor.m_query = some sampleQuery) ∧
    isPlainDirection sampleCursor.m_direction = true ∧
    ((continueFunctionInternal sampleDb (some 30) sampleCursor).2 =
        [CallbackEvent.successNullValue] ↔
      ∀ r ∈ sampleQuery.rest, ¬(rowLive sampleDb r = true ∧ r.key = 30)) :=
  ⟨rfl, rfl, (claim7_target_scan sampleDb 30 sampleCursor).2 sampleQuery rfl rfl⟩

/-- After any executed advance task, the row id is the Invalid sentinel iff
the current key is absent. -/
lemma internal_position_invariant (db : Database) (key : Option Key)
    (c : IDBCursorBackendImpl) :
    ((continueFunctionInternal db key c).1.m_currentId = none ↔
      (continueFunctionInternal db key c).1.m_currentKey = none) := by
  rcases internal_cases db key c with ⟨h1, _⟩ | ⟨q, r, rs, _, _, h1, _⟩
  · rw [h1]
    simp [exhaustCursor]
  · rw [h1, loadCurrentRow_some]
    simp

/-- C8: after construction, any number of advances, and any updates or
deletes, the current row id is the Invalid sentinel exactly when the
current key is absent — together signalling "no valid current position". -/
theorem claim8_position_invariant (c : IDBCursorBackendImpl) (h : Reachable c) :
    (c.m_currentId = none ↔ c.m_currentKey = none) := by
  induction h with
  | construct d q ssv => simp [IDBCursorBackendImpl.construct, loadCurrentRow]
  | advance db key c hc ih => exact internal_position_invariant db key c
  | updateStep v c hc ih =>
    rw [update_fst]
    exact ih
  | deleteStep c hc ih =>
    rw [deleteFunction_fst]
    exact ih

theorem claim8_witness :
    Reachable sampleCursor ∧
    (sampleCursor.m_currentId = none ↔ sampleCursor.m_currentKey = none) :=
  ⟨Reachable.construct Direction.NEXT sampleQuery true,
   claim8_position_invariant sampleCursor
     (Reachable.construct Direction.NEXT sampleQuery true)⟩

/-- C9: every executed advance task invokes the callback exactly once —
either a success carrying the repositioned cursor itself, or a success
carrying the empty/null result — with no partial or progress callbacks. -/
theorem claim9_callback_exactly_once (db : Database) (key : Option Key)
    (c : IDBCursorBackendImpl) :
    (continueFunctionInternal db key c).2.length = 1 ∧
    ((continueFunctionInternal db key c).2 =
        [CallbackEvent.successCursor (continueFunctionInternal db key c).1] ∨
      (continueFunctionInternal db key c).2 = [CallbackEvent.successNullValue]) := by
  rcases internal_cases db key c with ⟨h1, h2⟩ | ⟨q, r, rs, hq, hadv, h1, h2⟩
  · rw [h2]
    exact ⟨rfl, Or.inr rfl⟩
  · rw [h1, h2]
    exact ⟨rfl, Or.inl rfl⟩

/-- C10: `update` and `deleteFunction` leave every cursor field unchanged
on both the NotAllowed path and the delegation path — they return the
cursor exactly as given; only an advance mutates the position. -/
theorem claim10_mutation_frame (c : IDBCursorBackendImpl) (v : Value) :
    (c.update v).1 = c ∧ c.deleteFunction.1 = c :=
  ⟨update_fst c v, deleteFunction_fst c⟩

end WebCore
